import Mathlib

/-
Verification of the CI release-publishing script `.ci/update_release.py`.

The script is a linear sequence of I/O calls: read three environment
variables, split the repository owner/name string on a slash, read the
VERSION file, resolve credentials, construct an API client, look up the
release whose tag equals the VERSION contents, glob the output directory
for names matching the pattern star-dot-g-z, and upload each match as a
release asset, printing a progress line before each upload.

The embedding models the external world (environment, filesystem contents,
hosting-API behaviour) as a structure of pure functions and the script as
a pure function from a world to the list of observable effects it performs
together with its final outcome. Every step of the Python source
corresponds, in order, to one effect constructor. The constructors
writeFile and deleteAsset are operations the script could in principle
perform but never does; they are included so that frame properties
(no local writes, no rollback of already-uploaded assets) are statable.
-/

/-- Observable operations of the script, in the order the source performs
them. readEnv models `util.check_env`, readFile models `read_text`,
resolveCredentials models `util.ctx().cfg_factory()` together with
`cfg_factory.github`, constructClient models `GitHubRepositoryHelper(...)`,
releaseLookup models `repository.release_from_tag`, globDir models
`output_path.glob`, printLine models `print`, openFile models
`output_file.open(mode=rb)`, uploadAsset models `gh_release.upload_asset`.
writeFile and deleteAsset never occur in any trace of the script; they are
the observation language for frame claims. -/
inductive Effect where
  | readEnv (name : String)
  | readFile (path : String)
  | resolveCredentials
  | constructClient (owner : String) (name : String)
  | releaseLookup (tag : String)
  | globDir (path : String) (pattern : String)
  | printLine (line : String)
  | openFile (path : String)
  | uploadAsset (contentType : String) (name : String) (srcPath : String)
  | writeFile (path : String)
  | deleteAsset (name : String)
  deriving DecidableEq

/-- Failure outcomes, following the error taxonomy of the specification:
missing environment variable or malformed owner/name string, unreadable
file, release tag not found, rejected asset upload. The script catches
nothing, so the first failure is the final outcome. -/
inductive Err where
  | configurationError (what : String)
  | fileAccessError (path : String)
  | releaseNotFoundError (tag : String)
  | uploadError (name : String)
  deriving DecidableEq

/-- Splitting a character list at every occurrence of the separator
character, keeping empty groups, exactly as the Python method
`str.split` with a one-character separator: the number of groups is one
more than the number of separator occurrences. -/
def splitChar (c : Char) : List Char → List (List Char)
  | [] => [[]]
  | x :: xs =>
    let r := splitChar c xs
    if x = c then [] :: r
    else
      match r with
      | [] => [[x]]
      | g :: gs => (x :: g) :: gs

/-- Python `s.split(c)` for a one-character separator, on strings. -/
def pySplit (s : String) (c : Char) : List String :=
  (splitChar c s.data).map (fun l => ⟨l⟩)

/-- Whether `s` ends with `t`. The pathlib glob pattern used by the source
matches, via fnmatch translation, exactly the entry names that end in the
literal suffix of the pattern. -/
def strEndsWith (s t : String) : Bool :=
  List.isSuffixOf t.data s.data

/-- The external world the script runs against: the process environment,
the readable text files, the immediate children of each directory, which
release tags resolve to a release, which paths can be opened for binary
read, and which asset uploads the hosting API accepts. -/
structure World where
  env : String → Option String
  readTextFile : String → Option String
  dirEntries : String → List String
  releaseExists : String → Bool
  openOk : String → Bool
  uploadOk : String → Bool

/-- Environment variable names read by the script, lines 11 to 13 of the
source. -/
def envRepoOwnerAndName : String := "SOURCE_GITHUB_REPO_OWNER_AND_NAME"

def envMainRepoDir : String := "MAIN_REPO_DIR"

def envOutPath : String := "OUT_PATH"

/-- `VERSION_FILE_NAME` of the source. -/
def VERSION_FILE_NAME : String := "VERSION"

/-- Path of the version file: `repo_path / VERSION_FILE_NAME`. Path
resolution (`Path.resolve`) is a read-only canonicalisation and is
modelled as the identity on the directory string. -/
def versionFilePath (repoDir : String) : String :=
  repoDir ++ "/" ++ VERSION_FILE_NAME

/-- `repo_owner, repo_name = repo_owner_and_name.split('/')`: the unpack
succeeds exactly when the split yields two components (possibly empty);
any other shape raises, which the embedding reports as none. -/
def splitOwnerName (s : String) : Option (String × String) :=
  match pySplit s '/' with
  | [owner, name] => some (owner, name)
  | _ => none

/-- The filter applied by `output_path.glob('*.gz')` to each immediate
child name: the fnmatch translation of the pattern accepts exactly the
names ending in ".gz" (pathlib glob does not exclude dot-initial names). -/
def matchesGz (name : String) : Bool :=
  strEndsWith name ".gz"

/-- `list(output_path.glob('*.gz'))`: the immediate children whose names
end in ".gz", in enumeration order. -/
def globGz (entries : List String) : List String :=
  entries.filter matchesGz

/-- The progress line printed before each upload, from the f-string at
line 36 of the source. -/
def progressLine (filePath : String) : String :=
  "Attaching file " ++ filePath ++ " to the GitHub release"

/-- The three effects one loop iteration performs for the file named `n`
under directory `out`, in source order: print the progress line, open the
file for binary read (argument evaluation), call upload_asset with
content_type "application/gzip" and name equal to the base name. -/
def fileBlock (out n : String) : List Effect :=
  [Effect.printLine (progressLine (out ++ "/" ++ n)),
   Effect.openFile (out ++ "/" ++ n),
   Effect.uploadAsset "application/gzip" n (out ++ "/" ++ n)]

/-- The upload loop, lines 35 to 41 of the source: for each enumerated
file, print, open, upload; an unreadable file aborts with a file access
error after the print, a rejected upload aborts with an upload error, and
either abort skips every remaining file. -/
def uploadLoop (w : World) (out : String) : List String → List Effect × Except Err Unit
  | [] => ([], Except.ok ())
  | n :: rest =>
    let p := out ++ "/" ++ n
    if w.openOk p then
      if w.uploadOk n then
        let res := uploadLoop w out rest
        (fileBlock out n ++ res.1, res.2)
      else
        (fileBlock out n, Except.error (Err.uploadError n))
    else
      ([Effect.printLine (progressLine p), Effect.openFile p],
       Except.error (Err.fileAccessError p))

/-- The effects of the three `util.check_env` calls when all succeed. -/
def envTrace : List Effect :=
  [Effect.readEnv envRepoOwnerAndName, Effect.readEnv envMainRepoDir,
   Effect.readEnv envOutPath]

/-- The effects between the successful split and the release lookup,
lines 17 to 31 of the source: read the version file, resolve credentials,
construct the client for the split owner and name, look up the release by
the verbatim version file contents. -/
def lookupTrace (repoDir owner name tag : String) : List Effect :=
  [Effect.readFile (versionFilePath repoDir), Effect.resolveCredentials,
   Effect.constructClient owner name, Effect.releaseLookup tag]

/-- Lines 15 to 41 of the source, after the three environment reads have
produced the owner/name string, the repository directory and the output
directory. -/
def publishStage (w : World) (repoOwnerAndName repoDir outputDir : String) :
    List Effect × Except Err Unit :=
  match splitOwnerName repoOwnerAndName with
  | none => ([], Except.error (Err.configurationError repoOwnerAndName))
  | some (repo_owner, repo_name) =>
    match w.readTextFile (versionFilePath repoDir) with
    | none =>
      ([Effect.readFile (versionFilePath repoDir)],
       Except.error (Err.fileAccessError (versionFilePath repoDir)))
    | some version_file_contents =>
      if w.releaseExists version_file_contents then
        let output_files := globGz (w.dirEntries outputDir)
        let res := uploadLoop w outputDir output_files
        (lookupTrace repoDir repo_owner repo_name version_file_contents ++
           [Effect.globDir outputDir "*.gz"] ++ res.1,
         res.2)
      else
        (lookupTrace repoDir repo_owner repo_name version_file_contents,
         Except.error (Err.releaseNotFoundError version_file_contents))

/-- The whole script. Each `util.check_env` call reads one environment
variable and aborts with a configuration error when the variable is
absent; a later variable is not read once an earlier one is missing. -/
def update_release (w : World) : List Effect × Except Err Unit :=
  match w.env envRepoOwnerAndName with
  | none =>
    ([Effect.readEnv envRepoOwnerAndName],
     Except.error (Err.configurationError envRepoOwnerAndName))
  | some ron =>
    match w.env envMainRepoDir with
    | none =>
      ([Effect.readEnv envRepoOwnerAndName, Effect.readEnv envMainRepoDir],
       Except.error (Err.configurationError envMainRepoDir))
    | some rd =>
      match w.env envOutPath with
      | none => (envTrace, Except.error (Err.configurationError envOutPath))
      | some od =>
        let res := publishStage w ron rd od
        (envTrace ++ res.1, res.2)

/-- The asset names of the upload calls occurring in a trace, in order. -/
def uploadNames (tr : List Effect) : List String :=
  tr.filterMap fun e =>
    match e with
    | Effect.uploadAsset _ n _ => some n
    | _ => none

/-- The tags of the release lookups occurring in a trace, in order. -/
def lookupTags (tr : List Effect) : List String :=
  tr.filterMap fun e =>
    match e with
    | Effect.releaseLookup t => some t
    | _ => none

/-- The paths opened for reading in a trace, in order. -/
def openedPaths (tr : List Effect) : List String :=
  tr.filterMap fun e =>
    match e with
    | Effect.openFile p => some p
    | _ => none

/-- Whether an effect is an environment-variable read. -/
def Effect.isReadEnv : Effect → Bool
  | Effect.readEnv _ => true
  | _ => false

/-- Whether an effect writes the local filesystem. -/
def Effect.isFsWrite : Effect → Bool
  | Effect.writeFile _ => true
  | _ => false

/-- Whether an effect removes an already-uploaded asset. -/
def Effect.isAssetDeletion : Effect → Bool
  | Effect.deleteAsset _ => true
  | _ => false

/-- A lookup table for the three environment variables of the script. -/
def envOf (a b c : String) : String → Option String := fun k =>
  if k = envRepoOwnerAndName then some a
  else if k = envMainRepoDir then some b
  else if k = envOutPath then some c
  else none

/-- A world in which every step succeeds and the output directory holds
a.tar.gz, b.gz and c.txt. -/
def Whappy : World :=
  { env := envOf "acme/widget" "repo" "out"
    readTextFile := fun p => if p = "repo/VERSION" then some "v1.2.3" else none
    dirEntries := fun d => if d = "out" then ["a.tar.gz", "b.gz", "c.txt"] else []
    releaseExists := fun t => t == "v1.2.3"
    openOk := fun _ => true
    uploadOk := fun _ => true }

/-- A world with five matching artifacts in which the hosting API rejects
the upload of the third one. -/
def Wfail : World :=
  { env := envOf "acme/widget" "repo" "out"
    readTextFile := fun p => if p = "repo/VERSION" then some "v1.2.3" else none
    dirEntries := fun d =>
      if d = "out" then ["f1.gz", "f2.gz", "f3.gz", "f4.gz", "f5.gz"] else []
    releaseExists := fun t => t == "v1.2.3"
    openOk := fun _ => true
    uploadOk := fun n => !(n == "f3.gz") }

/-- A world in which no release matches any tag. -/
def Wnorel : World :=
  { env := envOf "acme/widget" "repo" "out"
    readTextFile := fun p => if p = "repo/VERSION" then some "v1.2.3" else none
    dirEntries := fun d => if d = "out" then ["a.tar.gz", "b.gz"] else []
    releaseExists := fun _ => false
    openOk := fun _ => true
    uploadOk := fun _ => true }

/-- A world whose output directory holds no name ending in ".gz". -/
def Wnogz : World :=
  { env := envOf "acme/widget" "repo" "out"
    readTextFile := fun p => if p = "repo/VERSION" then some "v1.2.3" else none
    dirEntries := fun d => if d = "out" then ["c.txt"] else []
    releaseExists := fun t => t == "v1.2.3"
    openOk := fun _ => true
    uploadOk := fun _ => true }

/-- A world with an empty process environment. -/
def Wnoenv : World :=
  { env := fun _ => none
    readTextFile := fun p => if p = "repo/VERSION" then some "v1.2.3" else none
    dirEntries := fun _ => []
    releaseExists := fun _ => true
    openOk := fun _ => true
    uploadOk := fun _ => true }

/-- A world whose owner/name string has no slash at all. -/
def Wnosplit : World :=
  { env := envOf "noslash" "repo" "out"
    readTextFile := fun p => if p = "repo/VERSION" then some "v1.2.3" else none
    dirEntries := fun _ => []
    releaseExists := fun _ => true
    openOk := fun _ => true
    uploadOk := fun _ => true }

/-- A world whose owner/name string is "a/": one slash, but the name
component after the slash is empty. -/
def Wslash : World :=
  { env := envOf "a/" "repo" "out"
    readTextFile := fun p => if p = "repo/VERSION" then some "v1" else none
    dirEntries := fun _ => []
    releaseExists := fun t => t == "v1"
    openOk := fun _ => true
    uploadOk := fun _ => true }


theorem uploadNames_append (a b : List Effect) :
    uploadNames (a ++ b) = uploadNames a ++ uploadNames b := by
  simp [uploadNames, List.filterMap_append]

theorem lookupTags_append (a b : List Effect) :
    lookupTags (a ++ b) = lookupTags a ++ lookupTags b := by
  simp [lookupTags, List.filterMap_append]

theorem openedPaths_append (a b : List Effect) :
    openedPaths (a ++ b) = openedPaths a ++ openedPaths b := by
  simp [openedPaths, List.filterMap_append]

theorem uploadNames_fileBlock (out n : String) :
    uploadNames (fileBlock out n) = [n] := rfl

theorem openedPaths_fileBlock (out n : String) :
    openedPaths (fileBlock out n) = [out ++ "/" ++ n] := rfl

theorem uploadNames_flatten_blocks (out : String) :
    ∀ l : List String, uploadNames ((l.map (fileBlock out)).flatten) = l
  | [] => rfl
  | n :: rest => by
    have ih := uploadNames_flatten_blocks out rest
    simp only [List.map_cons, List.flatten_cons, uploadNames_append,
      uploadNames_fileBlock, ih, List.singleton_append]

theorem openedPaths_flatten_blocks (out : String) :
    ∀ l : List String,
      openedPaths ((l.map (fileBlock out)).flatten) = l.map (fun n => out ++ "/" ++ n)
  | [] => rfl
  | n :: rest => by
    have ih := openedPaths_flatten_blocks out rest
    simp only [List.map_cons, List.flatten_cons, openedPaths_append,
      openedPaths_fileBlock, ih, List.singleton_append]

theorem lookupTags_flatten_blocks (out : String) :
    ∀ l : List String, lookupTags ((l.map (fileBlock out)).flatten) = []
  | [] => rfl
  | n :: rest => by
    have ih := lookupTags_flatten_blocks out rest
    simp only [List.map_cons, List.flatten_cons, lookupTags_append, ih]
    rfl

theorem update_release_env_some (w : World) (ron rd od : String)
    (hro : w.env envRepoOwnerAndName = some ron)
    (hrd : w.env envMainRepoDir = some rd)
    (hop : w.env envOutPath = some od) :
    update_release w =
      (envTrace ++ (publishStage w ron rd od).1, (publishStage w ron rd od).2) := by
  unfold update_release
  rw [hro, hrd, hop]

theorem publishStage_split_none (w : World) (ron rd od : String)
    (h : splitOwnerName ron = none) :
    publishStage w ron rd od = ([], Except.error (Err.configurationError ron)) := by
  unfold publishStage
  rw [h]

theorem publishStage_ok (w : World) (ron rd od owner nm ver : String)
    (hsplit : splitOwnerName ron = some (owner, nm))
    (hv : w.readTextFile (versionFilePath rd) = some ver)
    (hrel : w.releaseExists ver = true) :
    publishStage w ron rd od =
      (lookupTrace rd owner nm ver ++ [Effect.globDir od "*.gz"] ++
         (uploadLoop w od (globGz (w.dirEntries od))).1,
       (uploadLoop w od (globGz (w.dirEntries od))).2) := by
  simp only [publishStage, hsplit, hv, hrel, if_true]

theorem publishStage_notfound (w : World) (ron rd od owner nm ver : String)
    (hsplit : splitOwnerName ron = some (owner, nm))
    (hv : w.readTextFile (versionFilePath rd) = some ver)
    (hrel : w.releaseExists ver = false) :
    publishStage w ron rd od =
      (lookupTrace rd owner nm ver,
       Except.error (Err.releaseNotFoundError ver)) := by
  simp only [publishStage, hsplit, hv, hrel, Bool.false_eq_true, if_false]

theorem publishStage_noversion (w : World) (ron rd od owner nm : String)
    (hsplit : splitOwnerName ron = some (owner, nm))
    (hv : w.readTextFile (versionFilePath rd) = none) :
    publishStage w ron rd od =
      ([Effect.readFile (versionFilePath rd)],
       Except.error (Err.fileAccessError (versionFilePath rd))) := by
  simp only [publishStage, hsplit, hv]

theorem uploadLoop_all_ok (w : World) (out : String) :
    ∀ l : List String,
      (∀ n ∈ l, w.openOk (out ++ "/" ++ n) = true ∧ w.uploadOk n = true) →
      uploadLoop w out l = ((l.map (fileBlock out)).flatten, Except.ok ())
  | [], _ => rfl
  | n :: rest, h => by
    have hn := h n (List.mem_cons_self n rest)
    have ih := uploadLoop_all_ok w out rest (fun m hm => h m (List.mem_cons_of_mem n hm))
    simp only [uploadLoop, hn.1, hn.2, ih, if_true, List.map_cons, List.flatten_cons]

theorem uploadLoop_fail (w : World) (out : String) (l₁ : List String)
    (f : String) (l₂ : List String)
    (h₁ : ∀ n ∈ l₁, w.openOk (out ++ "/" ++ n) = true ∧ w.uploadOk n = true)
    (hopen : w.openOk (out ++ "/" ++ f) = true)
    (hfail : w.uploadOk f = false) :
    uploadLoop w out (l₁ ++ f :: l₂) =
      ((l₁.map (fileBlock out)).flatten ++ fileBlock out f,
       Except.error (Err.uploadError f)) := by
  induction l₁ with
  | nil =>
    simp only [List.nil_append, uploadLoop, hopen, hfail, List.map_nil,
      List.flatten_nil, if_true, Bool.false_eq_true, if_false]
  | cons n rest ih =>
    have hn := h₁ n (List.mem_cons_self n rest)
    have ih2 := ih (fun m hm => h₁ m (List.mem_cons_of_mem n hm))
    simp only [List.cons_append, uploadLoop, hn.1, hn.2, List.append_eq, ih2,
      if_true, List.map_cons, List.flatten_cons, List.append_assoc]

theorem uploadLoop_no_write_no_delete (w : World) (out : String) :
    ∀ l : List String, ∀ e ∈ (uploadLoop w out l).1,
      e.isFsWrite = false ∧ e.isAssetDeletion = false
  | [] => by intro e he; simp [uploadLoop] at he
  | n :: rest => by
    intro e he
    have ih := uploadLoop_no_write_no_delete w out rest
    cases h1 : w.openOk (out ++ "/" ++ n) with
    | false =>
      simp only [uploadLoop, h1, Bool.false_eq_true, if_false] at he
      simp at he
      rcases he with rfl | rfl <;> exact ⟨rfl, rfl⟩
    | true =>
      cases h2 : w.uploadOk n with
      | false =>
        simp only [uploadLoop, h1, h2, if_true, Bool.false_eq_true, if_false] at he
        simp [fileBlock] at he
        rcases he with rfl | rfl | rfl <;> exact ⟨rfl, rfl⟩
      | true =>
        simp only [uploadLoop, h1, h2, if_true, List.mem_append] at he
        rcases he with he | he
        · simp [fileBlock] at he
          rcases he with rfl | rfl | rfl <;> exact ⟨rfl, rfl⟩
        · exact ih e he

theorem publishStage_no_write_no_delete (w : World) (ron rd od : String) :
    ∀ e ∈ (publishStage w ron rd od).1,
      e.isFsWrite = false ∧ e.isAssetDeletion = false := by
  intro e he
  rcases hs : splitOwnerName ron with _ | ⟨o, nm⟩
  · rw [publishStage_split_none w ron rd od hs] at he
    simp at he
  · rcases hv : w.readTextFile (versionFilePath rd) with _ | ver
    · rw [publishStage_noversion w ron rd od o nm hs hv] at he
      simp at he
      subst he
      exact ⟨rfl, rfl⟩
    · cases hrel : w.releaseExists ver with
      | false =>
        rw [publishStage_notfound w ron rd od o nm ver hs hv hrel] at he
        simp [lookupTrace] at he
        rcases he with rfl | rfl | rfl | rfl <;> exact ⟨rfl, rfl⟩
      | true =>
        rw [publishStage_ok w ron rd od o nm ver hs hv hrel] at he
        simp only [List.append_assoc, List.mem_append] at he
        rcases he with he | he | he
        · simp [lookupTrace] at he
          rcases he with rfl | rfl | rfl | rfl <;> exact ⟨rfl, rfl⟩
        · simp at he
          subst he
          exact ⟨rfl, rfl⟩
        · exact uploadLoop_no_write_no_delete w od _ e he

theorem update_release_no_write_no_delete (w : World) :
    ∀ e ∈ (update_release w).1, e.isFsWrite = false ∧ e.isAssetDeletion = false := by
  intro e he
  rcases hro : w.env envRepoOwnerAndName with _ | ron
  · unfold update_release at he
    rw [hro] at he
    simp at he
    subst he
    exact ⟨rfl, rfl⟩
  · rcases hrd : w.env envMainRepoDir with _ | rd
    · unfold update_release at he
      rw [hro, hrd] at he
      simp at he
      rcases he with rfl | rfl <;> exact ⟨rfl, rfl⟩
    · rcases hop : w.env envOutPath with _ | od
      · unfold update_release at he
        rw [hro, hrd, hop] at he
        simp [envTrace] at he
        rcases he with rfl | rfl | rfl <;> exact ⟨rfl, rfl⟩
      · rw [update_release_env_some w ron rd od hro hrd hop] at he
        rw [List.mem_append] at he
        rcases he with he | he
        · simp [envTrace] at he
          rcases he with rfl | rfl | rfl <;> exact ⟨rfl, rfl⟩
        · exact publishStage_no_write_no_delete w ron rd od e he

theorem splitOwnerName_eq_none (s : String) (h : (pySplit s '/').length ≠ 2) :
    splitOwnerName s = none := by
  unfold splitOwnerName
  rcases hl : pySplit s '/' with _ | ⟨a, _ | ⟨b, _ | ⟨c, t⟩⟩⟩
  · rfl
  · rfl
  · exact absurd (by simp [hl]) h
  · rfl

theorem uploadNames_envTrace : uploadNames envTrace = [] := rfl

theorem uploadNames_lookupTrace (rd o nm t : String) :
    uploadNames (lookupTrace rd o nm t) = [] := rfl

theorem uploadNames_globEffect (od : String) :
    uploadNames [Effect.globDir od "*.gz"] = [] := rfl

theorem openedPaths_envTrace : openedPaths envTrace = [] := rfl

theorem openedPaths_lookupTrace (rd o nm t : String) :
    openedPaths (lookupTrace rd o nm t) = [] := rfl

theorem openedPaths_globEffect (od : String) :
    openedPaths [Effect.globDir od "*.gz"] = [] := rfl

theorem lookupTags_envTrace : lookupTags envTrace = [] := rfl

theorem lookupTags_lookupTrace (rd o nm t : String) :
    lookupTags (lookupTrace rd o nm t) = [t] := rfl

theorem lookupTags_globEffect (od : String) :
    lookupTags [Effect.globDir od "*.gz"] = [] := rfl

theorem lookupTags_uploadLoop (w : World) (out : String) :
    ∀ l : List String, lookupTags (uploadLoop w out l).1 = []
  | [] => rfl
  | n :: rest => by
    have ih := lookupTags_uploadLoop w out rest
    cases h1 : w.openOk (out ++ "/" ++ n) with
    | false => simp [uploadLoop, h1, lookupTags]
    | true =>
      cases h2 : w.uploadOk n with
      | false => simp [uploadLoop, h1, h2, lookupTags, fileBlock]
      | true =>
        simp only [uploadLoop, h1, h2, if_true, lookupTags_append, ih,
          List.append_nil]
        rfl

/-- C1: for every output directory, the files attempted as uploads are
exactly the immediate children whose names end in ".gz", as enumerated
once at glob time, and no other child is ever opened: in a run where the
environment, the split, the version file and the release lookup succeed
and the hosting API accepts every matching upload, the asset names of the
upload calls are exactly the glob matches of the directory listing, in
order, and the opened paths are exactly those matches joined under the
output directory. -/
theorem C1_upload_set_is_glob (w : World) (ron rd od owner nm ver : String)
    (hro : w.env envRepoOwnerAndName = some ron)
    (hrd : w.env envMainRepoDir = some rd)
    (hop : w.env envOutPath = some od)
    (hsplit : splitOwnerName ron = some (owner, nm))
    (hv : w.readTextFile (versionFilePath rd) = some ver)
    (hrel : w.releaseExists ver = true)
    (hok : ∀ n ∈ globGz (w.dirEntries od),
      w.openOk (od ++ "/" ++ n) = true ∧ w.uploadOk n = true) :
    uploadNames (update_release w).1 = globGz (w.dirEntries od) ∧
    openedPaths (update_release w).1 =
      (globGz (w.dirEntries od)).map (fun n => od ++ "/" ++ n) := by
  rw [update_release_env_some w ron rd od hro hrd hop,
      publishStage_ok w ron rd od owner nm ver hsplit hv hrel,
      uploadLoop_all_ok w od _ hok]
  constructor
  · simp only [uploadNames_append, uploadNames_envTrace, uploadNames_lookupTrace,
      uploadNames_globEffect, uploadNames_flatten_blocks, List.nil_append,
      List.append_nil]
  · simp only [openedPaths_append, openedPaths_envTrace, openedPaths_lookupTrace,
      openedPaths_globEffect, openedPaths_flatten_blocks, List.nil_append,
      List.append_nil]

/-- C1 witness: the happy world, whose output directory holds a.tar.gz,
b.gz and c.txt; the uploads are exactly the two glob matches and the
opened paths are exactly those two files. -/
theorem C1_upload_set_is_glob_witness :
    uploadNames (update_release Whappy).1 = globGz (Whappy.dirEntries "out") ∧
    openedPaths (update_release Whappy).1 =
      (globGz (Whappy.dirEntries "out")).map (fun n => "out" ++ "/" ++ n) :=
  C1_upload_set_is_glob Whappy "acme/widget" "repo" "out" "acme" "widget" "v1.2.3"
    rfl rfl rfl (by decide) rfl rfl (by decide)

/-- C2: the release lookup is invoked with a tag equal to the entire
contents of the VERSION file, verbatim: whenever the version file read
yields some contents, the run performs exactly one release lookup and its
tag is those contents, with no trimming or other transformation. -/
theorem C2_tag_is_verbatim_contents (w : World) (ron rd od owner nm ver : String)
    (hro : w.env envRepoOwnerAndName = some ron)
    (hrd : w.env envMainRepoDir = some rd)
    (hop : w.env envOutPath = some od)
    (hsplit : splitOwnerName ron = some (owner, nm))
    (hv : w.readTextFile (versionFilePath rd) = some ver) :
    lookupTags (update_release w).1 = [ver] := by
  rw [update_release_env_some w ron rd od hro hrd hop]
  cases hrel : w.releaseExists ver with
  | false =>
    rw [publishStage_notfound w ron rd od owner nm ver hsplit hv hrel]
    simp only [lookupTags_append, lookupTags_envTrace, lookupTags_lookupTrace,
      List.nil_append]
  | true =>
    rw [publishStage_ok w ron rd od owner nm ver hsplit hv hrel]
    simp only [lookupTags_append, lookupTags_envTrace, lookupTags_lookupTrace,
      lookupTags_globEffect, lookupTags_uploadLoop, List.nil_append,
      List.append_nil]

/-- C2 witness: with a VERSION file holding exactly "v1.2.3", the single
release lookup of the run carries the tag "v1.2.3". -/
theorem C2_tag_is_verbatim_contents_witness :
    lookupTags (update_release Whappy).1 = ["v1.2.3"] :=
  C2_tag_is_verbatim_contents Whappy "acme/widget" "repo" "out" "acme" "widget"
    "v1.2.3" rfl rfl rfl (by decide) rfl

/-- C10: the script performs no writes to the local filesystem in any
world: every effect of every run is a read, a credential resolution, a
client construction, a network call or a line on standard output; no
writeFile effect ever occurs. -/
theorem C10_no_local_fs_writes (w : World) :
    ∀ e ∈ (update_release w).1, e.isFsWrite = false := by
  intro e he
  exact (update_release_no_write_no_delete w e he).1

/-- C10 witness: the first effect of the happy run, the read of the
owner/name environment variable, is not a filesystem write. -/
theorem C10_no_local_fs_writes_witness :
    (Effect.readEnv envRepoOwnerAndName).isFsWrite = false :=
  C10_no_local_fs_writes Whappy (Effect.readEnv envRepoOwnerAndName) (by decide)

/-- C3: if the upload of the k-th enumerated artifact fails, the error
propagates immediately: the run terminates with that upload error, the
upload calls of the run are exactly those for the first k files (none for
any later file), and no already-uploaded asset is deleted (no rollback). -/
theorem C3_sequential_abort (w : World) (ron rd od owner nm ver : String)
    (l₁ : List String) (f : String) (l₂ : List String)
    (hro : w.env envRepoOwnerAndName = some ron)
    (hrd : w.env envMainRepoDir = some rd)
    (hop : w.env envOutPath = some od)
    (hsplit : splitOwnerName ron = some (owner, nm))
    (hv : w.readTextFile (versionFilePath rd) = some ver)
    (hrel : w.releaseExists ver = true)
    (hglob : globGz (w.dirEntries od) = l₁ ++ f :: l₂)
    (h₁ : ∀ n ∈ l₁, w.openOk (od ++ "/" ++ n) = true ∧ w.uploadOk n = true)
    (hopen : w.openOk (od ++ "/" ++ f) = true)
    (hfail : w.uploadOk f = false) :
    (update_release w).2 = Except.error (Err.uploadError f) ∧
    uploadNames (update_release w).1 = l₁ ++ [f] ∧
    ∀ e ∈ (update_release w).1, e.isAssetDeletion = false := by
  have hshape := update_release_env_some w ron rd od hro hrd hop
  have hpub := publishStage_ok w ron rd od owner nm ver hsplit hv hrel
  rw [hglob, uploadLoop_fail w od l₁ f l₂ h₁ hopen hfail] at hpub
  refine ⟨?_, ?_, ?_⟩
  · rw [hshape, hpub]
  · rw [hshape, hpub]
    simp only [uploadNames_append, uploadNames_envTrace, uploadNames_lookupTrace,
      uploadNames_globEffect, uploadNames_flatten_blocks, uploadNames_fileBlock,
      List.nil_append, List.append_nil]
  · intro e he
    exact (update_release_no_write_no_delete w e he).2

/-- C3 witness: five matching artifacts of which the third is rejected by
the hosting API; the run ends with that upload error, exactly the first
three uploads are attempted, and nothing is rolled back. -/
theorem C3_sequential_abort_witness :
    (update_release Wfail).2 = Except.error (Err.uploadError "f3.gz") ∧
    uploadNames (update_release Wfail).1 = ["f1.gz", "f2.gz"] ++ ["f3.gz"] ∧
    ∀ e ∈ (update_release Wfail).1, e.isAssetDeletion = false :=
  C3_sequential_abort Wfail "acme/widget" "repo" "out" "acme" "widget" "v1.2.3"
    ["f1.gz", "f2.gz"] "f3.gz" ["f4.gz", "f5.gz"]
    rfl rfl rfl (by decide) rfl rfl (by decide) (by decide) (by decide)
    (by decide)

/-- C4 as amended: the operation fails with a configuration error exactly
when the owner/name string does not split on the slash into exactly two
components; the components may be empty. When the split does not yield two
components the run ends with a configuration error naming the string and
the only effects performed are environment reads: no file read, no
credential resolution and no network call has happened. -/
theorem C4_malformed_owner_name_fails (w : World) (ron rd od : String)
    (hro : w.env envRepoOwnerAndName = some ron)
    (hrd : w.env envMainRepoDir = some rd)
    (hop : w.env envOutPath = some od)
    (hbad : (pySplit ron '/').length ≠ 2) :
    (update_release w).2 = Except.error (Err.configurationError ron) ∧
    ∀ e ∈ (update_release w).1, e.isReadEnv = true := by
  have hs := splitOwnerName_eq_none ron hbad
  have hshape := update_release_env_some w ron rd od hro hrd hop
  have hpub := publishStage_split_none w ron rd od hs
  constructor
  · rw [hshape, hpub]
  · intro e he
    rw [hshape, hpub] at he
    simp [envTrace] at he
    rcases he with rfl | rfl | rfl <;> rfl

/-- C4 witness: the owner/name string "noslash" has no separator, so the
run fails with a configuration error naming it. -/
theorem C4_malformed_owner_name_fails_witness :
    (update_release Wnosplit).2 =
      Except.error (Err.configurationError "noslash") :=
  (C4_malformed_owner_name_fails Wnosplit "noslash" "repo" "out"
    rfl rfl rfl (by decide)).1

/-- C4 counterexample: the claim also demands failure when a component is
empty, but the code only requires the split to yield two components. The
string "a/" splits into the owner "a" and the empty name, the unpack
succeeds, and a run with this string completes successfully, reading the
version file along the way rather than failing before any file read. -/
theorem C4_counterexample_empty_component :
    pySplit "a/" '/' = ["a", ""] ∧
    (update_release Wslash).2 = Except.ok () ∧
    Effect.readFile "repo/VERSION" ∈ (update_release Wslash).1 := by
  refine ⟨by decide, rfl, by decide⟩

/-- C5: the release lookup happens before any upload; if no release
matches the tag read from the version file, the run ends with a release
not found error for that tag, performs zero upload calls, and did perform
the lookup with that tag. -/
theorem C5_lookup_before_upload (w : World) (ron rd od owner nm ver : String)
    (hro : w.env envRepoOwnerAndName = some ron)
    (hrd : w.env envMainRepoDir = some rd)
    (hop : w.env envOutPath = some od)
    (hsplit : splitOwnerName ron = some (owner, nm))
    (hv : w.readTextFile (versionFilePath rd) = some ver)
    (hrel : w.releaseExists ver = false) :
    (update_release w).2 = Except.error (Err.releaseNotFoundError ver) ∧
    uploadNames (update_release w).1 = [] ∧
    lookupTags (update_release w).1 = [ver] := by
  have hshape := update_release_env_some w ron rd od hro hrd hop
  have hpub := publishStage_notfound w ron rd od owner nm ver hsplit hv hrel
  refine ⟨?_, ?_, ?_⟩
  · rw [hshape, hpub]
  · rw [hshape, hpub]
    simp only [uploadNames_append, uploadNames_envTrace, uploadNames_lookupTrace,
      List.nil_append]
  · rw [hshape, hpub]
    simp only [lookupTags_append, lookupTags_envTrace, lookupTags_lookupTrace,
      List.nil_append]

/-- C5 witness: a world in which no release matches; the run reports the
release not found error for the tag "v1.2.3" and uploads nothing, even
though two matching artifacts exist. -/
theorem C5_lookup_before_upload_witness :
    (update_release Wnorel).2 =
      Except.error (Err.releaseNotFoundError "v1.2.3") ∧
    uploadNames (update_release Wnorel).1 = [] ∧
    lookupTags (update_release Wnorel).1 = ["v1.2.3"] :=
  C5_lookup_before_upload Wnorel "acme/widget" "repo" "out" "acme" "widget"
    "v1.2.3" rfl rfl rfl (by decide) rfl rfl

/-- C8: an output directory with zero entries matching the glob is a
no-op completion, not an error: the run succeeds and performs zero upload
calls. -/
theorem C8_empty_glob_success (w : World) (ron rd od owner nm ver : String)
    (hro : w.env envRepoOwnerAndName = some ron)
    (hrd : w.env envMainRepoDir = some rd)
    (hop : w.env envOutPath = some od)
    (hsplit : splitOwnerName ron = some (owner, nm))
    (hv : w.readTextFile (versionFilePath rd) = some ver)
    (hrel : w.releaseExists ver = true)
    (hglob : globGz (w.dirEntries od) = []) :
    (update_release w).2 = Except.ok () ∧
    uploadNames (update_release w).1 = [] := by
  have hshape := update_release_env_some w ron rd od hro hrd hop
  have hpub := publishStage_ok w ron rd od owner nm ver hsplit hv hrel
  rw [hglob] at hpub
  constructor
  · rw [hshape, hpub]
    rfl
  · rw [hshape, hpub]
    simp only [uploadNames_append, uploadNames_envTrace, uploadNames_lookupTrace,
      uploadNames_globEffect, List.nil_append, List.append_nil]
    rfl

/-- C8 witness: the output directory holds only c.txt, so the glob is
empty, the run succeeds and no upload occurs. -/
theorem C8_empty_glob_success_witness :
    (update_release Wnogz).2 = Except.ok () ∧
    uploadNames (update_release Wnogz).1 = [] :=
  C8_empty_glob_success Wnogz "acme/widget" "repo" "out" "acme" "widget"
    "v1.2.3" rfl rfl rfl (by decide) rfl rfl (by decide)

/-- C9: when any of the three required environment variables is absent,
the run fails with a configuration error and the only effects performed
are environment reads: the version file has not been read, credentials
have not been resolved and no network call has been made. -/
theorem C9_missing_env_fails_fast (w : World)
    (h : w.env envRepoOwnerAndName = none ∨ w.env envMainRepoDir = none ∨
         w.env envOutPath = none) :
    (∃ v, (update_release w).2 = Except.error (Err.configurationError v)) ∧
    ∀ e ∈ (update_release w).1, e.isReadEnv = true := by
  rcases hro : w.env envRepoOwnerAndName with _ | ron
  · constructor
    · exact ⟨envRepoOwnerAndName, by unfold update_release; rw [hro]⟩
    · intro e he
      unfold update_release at he
      rw [hro] at he
      simp at he
      subst he
      rfl
  · rcases hrd : w.env envMainRepoDir with _ | rd
    · constructor
      · exact ⟨envMainRepoDir, by unfold update_release; rw [hro, hrd]⟩
      · intro e he
        unfold update_release at he
        rw [hro, hrd] at he
        simp at he
        rcases he with rfl | rfl <;> rfl
    · rcases hop : w.env envOutPath with _ | od
      · constructor
        · exact ⟨envOutPath, by unfold update_release; rw [hro, hrd, hop]⟩
        · intro e he
          unfold update_release at he
          rw [hro, hrd, hop] at he
          simp [envTrace] at he
          rcases he with rfl | rfl | rfl <;> rfl
      · rw [hro, hrd, hop] at h
        simp at h

/-- C9 witness: a world with an empty environment; the run fails with a
configuration error and performs only environment reads. -/
theorem C9_missing_env_fails_fast_witness :
    (∃ v, (update_release Wnoenv).2 = Except.error (Err.configurationError v)) ∧
    ∀ e ∈ (update_release Wnoenv).1, e.isReadEnv = true :=
  C9_missing_env_fails_fast Wnoenv (Or.inl rfl)

/-- C7: in a run where every stage succeeds, the trace is exactly the
environment reads, the version read, the credential resolution, the
client construction, the release lookup, the glob, and then one block per
matching file consisting of exactly one progress line naming the file,
the open, and the upload call; moreover every upload call of the run
carries content type "application/gzip" and a source path equal to the
output directory joined with the asset name, so the asset name is the
base name of the uploaded file. -/
theorem C7_upload_call_shape (w : World) (ron rd od owner nm ver : String)
    (hro : w.env envRepoOwnerAndName = some ron)
    (hrd : w.env envMainRepoDir = some rd)
    (hop : w.env envOutPath = some od)
    (hsplit : splitOwnerName ron = some (owner, nm))
    (hv : w.readTextFile (versionFilePath rd) = some ver)
    (hrel : w.releaseExists ver = true)
    (hok : ∀ n ∈ globGz (w.dirEntries od),
      w.openOk (od ++ "/" ++ n) = true ∧ w.uploadOk n = true) :
    (update_release w).1 =
      envTrace ++ lookupTrace rd owner nm ver ++ [Effect.globDir od "*.gz"] ++
        ((globGz (w.dirEntries od)).map (fileBlock od)).flatten ∧
    ∀ ct n p, Effect.uploadAsset ct n p ∈ (update_release w).1 →
      ct = "application/gzip" ∧ p = od ++ "/" ++ n := by
  have htr : (update_release w).1 =
      envTrace ++ lookupTrace rd owner nm ver ++ [Effect.globDir od "*.gz"] ++
        ((globGz (w.dirEntries od)).map (fileBlock od)).flatten := by
    rw [update_release_env_some w ron rd od hro hrd hop,
        publishStage_ok w ron rd od owner nm ver hsplit hv hrel,
        uploadLoop_all_ok w od _ hok]
    simp [List.append_assoc]
  refine ⟨htr, ?_⟩
  intro ct n p hmem
  rw [htr] at hmem
  simp only [List.append_assoc, List.mem_append] at hmem
  rcases hmem with h | h | h | h
  · simp [envTrace] at h
  · simp [lookupTrace] at h
  · simp at h
  · rw [List.mem_flatten] at h
    obtain ⟨blk, hblk, hin⟩ := h
    rw [List.mem_map] at hblk
    obtain ⟨m, hm, rfl⟩ := hblk
    simp only [fileBlock, List.mem_cons, List.not_mem_nil, or_false] at hin
    rcases hin with h | h | h
    · exact absurd h (by simp)
    · exact absurd h (by simp)
    · rw [Effect.uploadAsset.injEq] at h
      obtain ⟨hct, hnm, hp⟩ := h
      refine ⟨hct, ?_⟩
      rw [hp, hnm]

/-- C7 witness: the happy run; its trace is exactly the fixed lead
followed by one progress-open-upload block for each of a.tar.gz and
b.gz. -/
theorem C7_upload_call_shape_witness :
    (update_release Whappy).1 =
      envTrace ++ lookupTrace "repo" "acme" "widget" "v1.2.3" ++
        [Effect.globDir "out" "*.gz"] ++
        ((globGz (Whappy.dirEntries "out")).map (fileBlock "out")).flatten :=
  (C7_upload_call_shape Whappy "acme/widget" "repo" "out" "acme" "widget"
    "v1.2.3" rfl rfl rfl (by decide) rfl rfl (by decide)).1
